import Mathlib

/-!
Verification development for the riko / pipe2py pipe modules:
`riko/modules/pipetail.py`, `pipe2py/modules/pipeuniq.py`,
`pipe2py/modules/pipedatebuilder.py`, `pipe2py/modules/piperssitembuilder.py`.

Records (the DotDict items flowing through a pipe) are shallowly embedded as
association lists of string keys to values, where a value is a scalar string,
an integer, or a nested record.  Streams are finite lists of records.
-/

namespace Riko

mutual

/-- A value stored in a record: a scalar string, an integer, or a nested
record, mirroring the Python dict values that flow through the pipes. -/
inductive Value where
  | str : String → Value
  | int : Int → Value
  | obj : Record → Value

/-- A record: a mapping from string keys to values, embedded as an
association list (first binding of a key wins on lookup). -/
inductive Record where
  | nil : Record
  | cons : String → Value → Record → Record

end

deriving instance DecidableEq for Value, Record

/-- Plain (single-key, non-dotted) lookup of a key in a record; `none` when
the key is absent.  This is Python `dict.get(key)` returning `None` for a
missing key. -/
def recGet : Record → String → Option Value
  | .nil, _ => none
  | .cons k' v rest, k => if k' = k then some v else recGet rest k

/-- Build a flat record from a list of key/value pairs. -/
def Record.ofList : List (String × Value) → Record
  | [] => .nil
  | (k, v) :: rest => .cons k v (Record.ofList rest)

/-- Python error outcomes that the embedded code can raise. -/
inductive PyErr where
  | valueError
  | attributeError
deriving DecidableEq

deriving instance DecidableEq for Except

/-! Python string primitives.

The built-in Lean string functions are not kernel-reducible, so the string
operations the Python code uses (`str.lower`, `str.endswith`,
`str.split`, `int(...)`) are embedded at the character-list level. -/

/-- ASCII lower-casing of one character (`str.lower` on the inputs at
hand). -/
def lowerChar (c : Char) : Char :=
  if 'A' ≤ c ∧ c ≤ 'Z' then Char.ofNat (c.toNat + 32) else c

/-- Python `s.lower()`. -/
def pyLower (s : String) : String := ⟨s.data.map lowerChar⟩

/-- Python `s.endswith(suffix)`. -/
def pyEndsWith (s suffix : String) : Bool := suffix.data.isSuffixOf s.data

/-- Split a character list on a separator character, keeping empty
segments, as Python `str.split(sep)` does. -/
def splitCh (sep : Char) : List Char → List (List Char)
  | [] => [[]]
  | c :: rest =>
    let r := splitCh sep rest
    if c = sep then [] :: r
    else (c :: r.headD []) :: r.tail

/-- Python `s.split(sep)` for a one-character separator. -/
def pySplitOn (s : String) (sep : Char) : List String :=
  (splitCh sep s.data).map (fun cs => ⟨cs⟩)

/-- Accumulate a decimal digit string into a number; `none` on a
non-digit. -/
def digitsToNat (acc : Nat) : List Char → Option Nat
  | [] => some acc
  | c :: rest =>
    if '0' ≤ c ∧ c ≤ '9' then digitsToNat (10 * acc + (c.toNat - '0'.toNat)) rest
    else none

/-- Python `int(s)` on the shapes that occur here: an optional sign
followed by decimal digits; `none` models the `ValueError` raised for
anything else (such as the empty string). -/
def pyInt (s : String) : Option Int :=
  match s.data with
  | [] => none
  | '-' :: rest =>
    match rest with
    | [] => none
    | _ => (digitsToNat 0 rest).map (fun n => -(n : Int))
  | '+' :: rest =>
    match rest with
    | [] => none
    | _ => (digitsToNat 0 rest).map (fun n => (n : Int))
  | cs => (digitsToNat 0 cs).map (fun n => (n : Int))

/-- Modelled from the spec: the asynchronous execution form of a pipe
returns a single future/promise (`twisted` Deferred) resolving to the
fully realized output collection (§4.3); the wrapper decorators themselves
are outside the shown source.  `result` is the value the future resolves
to. -/
structure Deferred (α : Type) where
  result : α
deriving DecidableEq

/-! Embedding of pipe2py/modules/pipeuniq.py. -/

/-- Embedding of `pipeuniq.unique_items`, with the mutable `seen` set made explicit as
an accumulator of already-seen field values: an item is yielded exactly
when its field value (`item.get(field)`, which is `none` when the field is
absent) is not in `seen`, in which case the value is added to `seen`. -/
def unique_items_aux (field : String) (seen : List (Option Value)) :
    List Record → List Record
  | [] => []
  | item :: rest =>
    if recGet item field ∈ seen then unique_items_aux field seen rest
    else item :: unique_items_aux field (recGet item field :: seen) rest

/-- Embedding of `pipeuniq.unique_items(items, field)`: the seen set starts empty. -/
def unique_items (items : List Record) (field : String) : List Record :=
  unique_items_aux field [] items

/-- Embedding of `pipeuniq.pipe_uniq`: `_OUTPUT = _INPUT if _pass else
unique_items(_INPUT, parsed.field)`.  The bypass outcome
`_pass = utils.get_pass(test=test)` and the conf resolution
`parsed.field` are computed by helpers outside the shown source; they are
taken as the already-evaluated parameters `_pass` and `field`. -/
def pipe_uniq (_pass : Bool) (field : String) (_INPUT : List Record) :
    List Record :=
  if _pass then _INPUT else unique_items _INPUT field

/-- Specification-side restatement of the uniqueness filter, used to
settle the claims: a record is kept exactly when its field value differs
from the field value of every earlier record of the input (`prevVals`
accumulates the field values of all records already scanned, kept or
dropped alike). -/
def firstOccurrences_aux (field : String) (prevVals : List (Option Value)) :
    List Record → List Record
  | [] => []
  | item :: rest =>
    if recGet item field ∈ prevVals then
      firstOccurrences_aux field (recGet item field :: prevVals) rest
    else item :: firstOccurrences_aux field (recGet item field :: prevVals) rest

/-- The records of `items` whose field value is not equal to the field
value of any earlier record of `items`, in input order. -/
def firstOccurrences (field : String) (items : List Record) : List Record :=
  firstOccurrences_aux field [] items

/-! Embedding of riko/modules/pipetail.py. -/

/-- One append step of a Python `collections.deque` with a `maxlen` bound:
with a zero bound nothing is retained; below the bound the element is
appended; at the bound the oldest (leftmost) element is evicted. -/
def dequeAppend (maxlen : Nat) (buf : List α) (x : α) : List α :=
  if maxlen = 0 then []
  else if buf.length < maxlen then buf ++ [x]
  else buf.tail ++ [x]

/-- Python `deque(xs, maxlen)`: raises `ValueError` for a negative bound,
otherwise feeds the iterable through the bounded eviction buffer. -/
def pyDeque (xs : List α) (maxlen : Int) : Except PyErr (List α) :=
  if maxlen < 0 then .error .valueError
  else .ok (xs.foldl (dequeAppend maxlen.toNat) [])

namespace Pipetail

/-- Embedding of `pipetail.parser`: `deque(stream, int(objconf.count))` — the finite
source stream fed through a deque bounded by the configured count, already
coerced to an integer by `int(...)`. -/
def parser (stream : List Record) (count : Int) : Except PyErr (List Record) :=
  pyDeque stream count

/-- Modelled from the spec: the `operator` decorator (outside the shown
source) hands the aggregator the whole stream and the item-independent
configuration, and the synchronous form lazily yields the parser's output
(§4.3).  The body of `pipe` in the source is exactly
`parser(*args, **kwargs)`. -/
def pipe (stream : List Record) (count : Int) : Except PyErr (List Record) :=
  parser stream count

/-- Modelled from the spec: the asynchronous form returns a Deferred
resolving to the realized output of the same parser call (§4.3).  The body
of `asyncPipe` in the source is exactly `parser(*args, **kwargs)`. -/
def asyncPipe (stream : List Record) (count : Int) :
    Deferred (Except PyErr (List Record)) :=
  ⟨parser stream count⟩

end Pipetail

/-! Embedding of pipe2py/modules/pipedatebuilder.py. -/

/-- The datetime library operations called by `pipedatebuilder.py`; the
date representation `D` is kept abstract, since the pipe's own dispatch
logic is what is embedded.  `addDays d n` is `d + timedelta(days=n)`;
`replaceYearAdd d n` is `d.replace(year=d.year + n)`; `truthy` is Python
truthiness of a `time.struct_time` (true for every real date, since a
`struct_time` is a non-empty tuple). -/
structure DateOps (D : Type) where
  addDays : D → Int → D
  replaceYearAdd : D → Int → D
  truthy : D → Bool

/-- A Python datetime-related object as stored in the `SWITCH` table:
either a `datetime` instance or an already-converted `time.struct_time`
(the result of `.timetuple()`), both carrying a date of type `D`. -/
inductive PyDateObj (D : Type) where
  | datetime : D → PyDateObj D
  | timetuple : D → PyDateObj D
deriving DecidableEq

/-- Embedding of `pipedatebuilder.SWITCH`, built once at module import time: `today`,
`tomorrow` and `yesterday` are stored as `datetime` values offset from the
import-time `datetime.today()`, while `now` is stored as
`datetime.now().timetuple()` — already a `struct_time`, not a `datetime`. -/
def SWITCH (ops : DateOps D) (importToday importNow : D) :
    String → Option (PyDateObj D)
  | "today" => some (.datetime importToday)
  | "tomorrow" => some (.datetime (ops.addDays importToday 1))
  | "yesterday" => some (.datetime (ops.addDays importToday (-1)))
  | "now" => some (.timetuple importNow)
  | _ => none

/-- The attribute access `SWITCH.get(date).timetuple()`: on a `datetime`
it yields that date's `struct_time`; on `None` (expression not in the
table) or on a value that is already a `struct_time` it raises
`AttributeError` (neither `NoneType` nor `time.struct_time` has a
`timetuple` attribute). -/
def timetupleOf : Option (PyDateObj D) → Except PyErr D
  | some (.datetime d) => .ok d
  | some (.timetuple _) => .error .attributeError
  | none => .error .attributeError

/-- Python `datetime.strptime(date, df)` where `date` is not a string: the call
always raises (`TypeError`), and the bare `except` in the source swallows
it, so the parse never succeeds. -/
def strptimeNonString (_dateVal : D) (_fmt : String) : Option D := none

/-- The fallback loop over `util.ALTERNATIVE_DATE_FORMATS`: try each
format in sequence, break on the first success, and (by the `for`/`else`
arm, which is `pass`) leave the date unchanged when every format fails. -/
def strptimeFallback (formats : List String) (dateVal : D) : D :=
  match formats with
  | [] => dateVal
  | fmt :: rest =>
    match strptimeNonString dateVal fmt with
    | some parsed => parsed
    | none => strptimeFallback rest dateVal

/-- The three-way dispatch of `pipe_datebuilder` on the lower-cased date
expression: a `" day"/" days"` suffix parses a leading integer
(`int(date.split(' ')[0])`, `ValueError` when unparseable) and adds that
many days to the resolution-time `datetime.today()`; a `" year"/" years"`
suffix likewise adds years via `replace(year=...)`; otherwise
`SWITCH.get(date).timetuple()` is evaluated. -/
def datebuilder_dispatch (ops : DateOps D) (importToday importNow today : D)
    (date : String) : Except PyErr D :=
  if pyEndsWith date " day" || pyEndsWith date " days" then
    match pyInt ((pySplitOn date ' ').headD "") with
    | some count => .ok (ops.addDays today count)
    | none => .error .valueError
  else if pyEndsWith date " year" || pyEndsWith date " years" then
    match pyInt ((pySplitOn date ' ').headD "") with
    | some count => .ok (ops.replaceYearAdd today count)
    | none => .error .valueError
  else
    timetupleOf (SWITCH ops importToday importNow date)

/-- One loop iteration of `pipedatebuilder.pipe_datebuilder` for a
resolved date expression: lower-case the expression, dispatch on its
suffix, then — only when the resulting date is falsy — run the fallback
format loop; the produced date is yielded. -/
def datebuilder_item (ops : DateOps D) (importToday importNow today : D)
    (formats : List String) (expr : String) : Except PyErr D :=
  match datebuilder_dispatch ops importToday importNow today (pyLower expr) with
  | .error e => .error e
  | .ok tt => if ops.truthy tt then .ok tt else .ok (strptimeFallback formats tt)

/-- Embedding of `pipedatebuilder.pipe_datebuilder` over a finite input stream: one
output date per input item.  The conf `DATE` value is resolved per item by
`util.get_value` (outside the shown source), modelled from the spec as the
per-item resolved expression `dateOf item`. -/
def pipe_datebuilder (ops : DateOps D) (importToday importNow today : D)
    (formats : List String) (dateOf : Record → String) (_INPUT : List Record) :
    List (Except PyErr D) :=
  _INPUT.map (fun item =>
    datebuilder_item ops importToday importNow today formats (dateOf item))

/-! Embedding of pipe2py/modules/piperssitembuilder.py. -/

/-- Embedding of `piperssitembuilder.RSS`: the yahoo-style rss item renaming table
(dots are for sub-levels). -/
def RSS : List (String × String) :=
  [("title", "y:title"),
   ("guid", "y:id"),
   ("mediaThumbURL", "media:thumbnail.url"),
   ("mediaThumbHeight", "media:thumbnail.height"),
   ("mediaThumbWidth", "media:thumbnail.width"),
   ("mediaContentType", "media:content.type"),
   ("mediaContentURL", "media:content.url"),
   ("mediaContentHeight", "media:content.height"),
   ("mediaContentWidth", "media:content.width")]

/-- Python `RSS.get(k, k)`: the renamed key, or the key itself when it is not in
the table. -/
def rssRename (k : String) : String := (RSS.lookup k).getD k

/-- Modelled from the spec: `DotDict.get(path, default)` (§4.1; the
DotDict class is outside the shown source).  Resolves a dot-separated path
by descending nested mappings, threading the default: the default is
returned as soon as a segment is absent or a non-record value is reached
before the final segment; the lookup never fails. -/
def getSegsD : Record → List String → Value → Value
  | _, [], d => d
  | r, [k], d => (recGet r k).getD d
  | r, k :: k' :: rest, d =>
    match recGet r k with
    | some (.obj r') => getSegsD r' (k' :: rest) d
    | _ => d

/-- Option-valued dotted path lookup — the spec's reading of the accessor:
`some` of the value at the path when every segment is present, `none`
otherwise. -/
def getPathSegs : Record → List String → Option Value
  | _, [] => none
  | r, [k] => recGet r k
  | r, k :: k' :: rest =>
    match recGet r k with
    | some (.obj r') => getPathSegs r' (k' :: rest)
    | _ => none

/-- The value of `r` at the dotted `path`, when present. -/
def dotGet (r : Record) (path : String) : Option Value :=
  getPathSegs r (pySplitOn path '.')

/-- Python `item.get(v, v, **kwargs)` in the rss parser: two-tier resolution of a
configuration entry value `v` against the current record — dotted path
lookup with the raw string itself as the default literal. -/
def resolveEntry (item : Record) (v : String) : Value :=
  getSegsD item (pySplitOn v '.') (.str v)

/-- Replace the binding of `k` in a record (or append a new binding). -/
def setKey : Record → String → Value → Record
  | .nil, k, v => .cons k v .nil
  | .cons k' v' rest, k, v =>
    if k' = k then .cons k v rest else .cons k' v' (setKey rest k v)

/-- Modelled from the spec: `DotDict` assignment with a dotted key builds
nested records (§4.1 `set`/`construct`), descending into an existing
sub-record when one is present and creating a fresh one otherwise. -/
def dotSetSegs : Record → List String → Value → Record
  | r, [], _ => r
  | r, [k], v => setKey r k v
  | r, k :: k' :: rest, v =>
    setKey r k (.obj (dotSetSegs
      (match recGet r k with
       | some (.obj r') => r'
       | _ => .nil) (k' :: rest) v))

/-- Python `DotDict(pairs)`: build a record from key/value pairs in order,
expanding dotted keys into sub-levels. -/
def dotDictOfPairs (pairs : List (String × Value)) : Record :=
  pairs.foldl (fun r kv => dotSetSegs r (pySplitOn kv.1 '.') kv.2) .nil

namespace Rssitembuilder

/-- Embedding of `piperssitembuilder.parser`: with `skip` set, the externally supplied
`feed` passes through verbatim; otherwise every configuration entry
`(k, v)` contributes the pair `(RSS.get(k, k), item.get(v, v, **kwargs))`
and the pairs are assembled into a DotDict (dotted renamed keys become
sub-levels).  Returns the tuple `(feed, skip)`. -/
def parser (item : Record) (objconf : List (String × String)) (skip : Bool)
    (feed : Record) : Record × Bool :=
  if skip then (feed, skip)
  else
    (dotDictOfPairs (objconf.map (fun kv => (rssRename kv.1, resolveEntry item kv.2))),
     skip)

/-- Embedding of `piperssitembuilder.DEFAULTS`: `pubDate` defaults to the current
timestamp `dt.now().isoformat()`, taken as the parameter `ts`. -/
def DEFAULTS (ts : String) : List (String × String) := [("pubDate", ts)]

/-- Modelled from the spec: the `processor` decorator (outside the shown
source) merges DEFAULTS under the caller-supplied configuration (§3
PipeDescriptor) — caller entries win, defaults fill in missing keys. -/
def mergeDefaults (defaults conf : List (String × String)) :
    List (String × String) :=
  conf ++ defaults.filter (fun kv => (conf.lookup kv.1).isNone)

/-- Modelled from the spec: the synchronous entry point `pipe` — the
`processor`-wrapped `parser` with the defaults-merged configuration and
`skip = false` (§4.3).  The body of `pipe` in the source is exactly
`parser(*args, **kwargs)`. -/
def pipe (item : Record) (conf : List (String × String)) (ts : String) :
    Record :=
  (parser item (mergeDefaults (DEFAULTS ts) conf) false .nil).1

/-- Modelled from the spec: the asynchronous entry point `asyncPipe` — a
Deferred resolving to the realized output of the same `parser` call with
the same arguments (§4.3).  The body of `asyncPipe` in the source is
exactly `parser(*args, **kwargs)`. -/
def asyncPipe (item : Record) (conf : List (String × String)) (ts : String) :
    Deferred Record :=
  ⟨(parser item (mergeDefaults (DEFAULTS ts) conf) false .nil).1⟩

end Rssitembuilder

/-! Concrete example data used by the spec's testable properties. -/

/-- The record `{x: n}`. -/
def exRec (n : Int) : Record := .cons "x" (.int n) .nil

/-- The example stream `[{x:0}, {x:1}, {x:2}, {x:3}, {x:4}]`. -/
def exStream : List Record := [exRec 0, exRec 1, exRec 2, exRec 3, exRec 4]

/-- The example rss input record `{id: "a1", thumbnail: "image.png"}`. -/
def exItem : Record :=
  .cons "id" (.str "a1") (.cons "thumbnail" (.str "image.png") .nil)

/-- A concrete instantiation of the datetime operations over a toy integer
date representation (a day count, with years scaled by a thousand and
every struct_time truthy), used to evaluate the embedded date dispatch on
concrete inputs. -/
def intDateOps : DateOps Int :=
  { addDays := fun d n => d + n,
    replaceYearAdd := fun d n => d + 1000 * n,
    truthy := fun _ => true }

/-! Lemmas about the uniqueness filter. -/

/-- Running the filter with seen sets of equal membership gives the same
output; in particular the source's seen set (which records only values of
forwarded items) filters identically to the specification's accumulator of
all earlier values, because a dropped item's value is already present. -/
theorem unique_items_aux_eq_firstOccurrences_aux (field : String) :
    ∀ (items : List Record) (seen prev : List (Option Value)),
      (∀ v, v ∈ seen ↔ v ∈ prev) →
      unique_items_aux field seen items = firstOccurrences_aux field prev items := by
  intro items
  induction items with
  | nil => intro seen prev _; rfl
  | cons item rest ih =>
    intro seen prev h
    simp only [unique_items_aux, firstOccurrences_aux]
    by_cases hv : recGet item field ∈ seen
    · rw [if_pos hv, if_pos ((h _).1 hv)]
      apply ih
      intro v
      constructor
      · intro hx
        exact List.mem_cons.2 (Or.inr ((h v).1 hx))
      · intro hx
        rcases List.mem_cons.1 hx with heq | hx'
        · exact heq ▸ hv
        · exact (h v).2 hx'
    · rw [if_neg hv, if_neg (fun c => hv ((h _).2 c))]
      congr 1
      apply ih
      intro v
      simp only [List.mem_cons]
      exact or_congr Iff.rfl (h v)

/-- The filter's output is a subsequence of its input (order preserved,
nothing new added). -/
theorem unique_items_aux_sublist (field : String) :
    ∀ (items : List Record) (seen : List (Option Value)),
      List.Sublist (unique_items_aux field seen items) items := by
  intro items
  induction items with
  | nil => intro _; exact List.Sublist.refl _
  | cons item rest ih =>
    intro seen
    simp only [unique_items_aux]
    by_cases hv : recGet item field ∈ seen
    · rw [if_pos hv]
      exact (ih seen).cons _
    · rw [if_neg hv]
      exact (ih _).cons₂ _

/-- The field values of the filter's output are pairwise distinct and
disjoint from the starting seen set. -/
theorem unique_items_aux_vals (field : String) :
    ∀ (items : List Record) (seen : List (Option Value)),
      ((unique_items_aux field seen items).map (fun r => recGet r field)).Nodup ∧
      ∀ r ∈ unique_items_aux field seen items, recGet r field ∉ seen := by
  intro items
  induction items with
  | nil =>
    intro seen
    refine ⟨List.nodup_nil, ?_⟩
    intro r hr
    cases hr
  | cons item rest ih =>
    intro seen
    simp only [unique_items_aux]
    by_cases hv : recGet item field ∈ seen
    · rw [if_pos hv]
      exact ih seen
    · rw [if_neg hv]
      obtain ⟨hnd, hns⟩ := ih (recGet item field :: seen)
      constructor
      · simp only [List.map_cons, List.nodup_cons]
        refine ⟨?_, hnd⟩
        intro hmem
        obtain ⟨r, hr, hre⟩ := List.mem_map.1 hmem
        apply hns r hr
        rw [hre]
        exact List.mem_cons_self _ _
      · intro r hr
        rcases List.mem_cons.1 hr with heq | hr'
        · exact heq ▸ hv
        · intro hc
          exact hns r hr' (List.mem_cons.2 (Or.inr hc))

/-- On an input whose field values are already pairwise distinct and
disjoint from the seen set, the filter forwards everything unchanged. -/
theorem unique_items_aux_id (field : String) :
    ∀ (items : List Record) (seen : List (Option Value)),
      (items.map (fun r => recGet r field)).Nodup →
      (∀ r ∈ items, recGet r field ∉ seen) →
      unique_items_aux field seen items = items := by
  intro items
  induction items with
  | nil => intro _ _ _; rfl
  | cons item rest ih =>
    intro seen hnd hns
    simp only [List.map_cons, List.nodup_cons] at hnd
    simp only [unique_items_aux]
    rw [if_neg (hns item (List.mem_cons_self _ _))]
    congr 1
    apply ih _ hnd.2
    intro r hr hc
    rcases List.mem_cons.1 hc with heq | hc'
    · exact hnd.1 (List.mem_map.2 ⟨r, hr, heq⟩)
    · exact hns r (List.mem_cons.2 (Or.inr hr)) hc'

/-- Among the output records, the ones lacking the field: none at all once
an absent value is in the seen set, and exactly the first field-lacking
input record otherwise. -/
theorem unique_items_aux_none_filter (field : String) :
    ∀ (items : List Record) (seen : List (Option Value)),
      (none ∈ seen →
        (unique_items_aux field seen items).filter
          (fun r => (recGet r field).isNone) = []) ∧
      (none ∉ seen →
        (unique_items_aux field seen items).filter
            (fun r => (recGet r field).isNone)
          = (items.filter (fun r => (recGet r field).isNone)).take 1) := by
  intro items
  induction items with
  | nil =>
    intro seen
    exact ⟨fun _ => rfl, fun _ => rfl⟩
  | cons item rest ih =>
    intro seen
    simp only [unique_items_aux]
    constructor
    · intro hn
      by_cases hv : recGet item field ∈ seen
      · rw [if_pos hv]
        exact (ih seen).1 hn
      · rw [if_neg hv]
        have hvn : (recGet item field).isNone = false := by
          cases hx : recGet item field with
          | none => exact absurd (hx ▸ hn) (hx ▸ hv)
          | some _ => rfl
        rw [List.filter_cons, hvn]
        simp only [Bool.false_eq_true, if_false]
        exact (ih (recGet item field :: seen)).1 (List.mem_cons.2 (Or.inr hn))
    · intro hn
      cases hx : recGet item field with
      | none =>
        rw [if_neg hn]
        rw [List.filter_cons, List.filter_cons]
        simp only [hx, Option.isNone_none, if_true]
        rw [(ih (none :: seen)).1 (List.mem_cons_self _ _)]
        rfl
      | some v =>
        by_cases hv : (some v : Option Value) ∈ seen
        · rw [if_pos hv]
          rw [List.filter_cons]
          simp only [hx, Option.isNone_some, Bool.false_eq_true, if_false]
          exact (ih seen).2 hn
        · rw [if_neg hv]
          rw [List.filter_cons, List.filter_cons]
          simp only [hx, Option.isNone_some, Bool.false_eq_true, if_false]
          apply (ih (some v :: seen)).2
          intro hc
          rcases List.mem_cons.1 hc with heq | hc'
          · cases heq
          · exact hn hc'

/-! Claim theorems for the uniqueness filter. -/

/-- C4: for every input stream and every configured field path, the
uniqueness filter forwards a record exactly when its field value is not
equal to the field value of any earlier record in the stream (the output
coincides with `firstOccurrences`, which keeps exactly those records), and
drops every other record; the forwarded records keep their input order
(the output is a sublist of the input). -/
theorem claim_C4_unique_forwards_first_occurrences :
    ∀ (items : List Record) (field : String),
      unique_items items field = firstOccurrences field items ∧
      List.Sublist (unique_items items field) items := by
  intro items field
  exact ⟨unique_items_aux_eq_firstOccurrences_aux field items [] [] (fun _ => Iff.rfl),
         unique_items_aux_sublist field items []⟩

/-- C5: the uniqueness filter is idempotent — applying it a second time to
its own output yields that output unchanged. -/
theorem claim_C5_unique_items_idempotent :
    ∀ (items : List Record) (field : String),
      unique_items (unique_items items field) field = unique_items items field := by
  intro items field
  apply unique_items_aux_id
  · exact (unique_items_aux_vals field items []).1
  · intro r _ hc
    cases hc

/-- C9: when the uniqueness pipe's bypass test (`pass_if`) evaluates true,
the pipe's output stream is the input stream unchanged — the filter is
skipped for the whole pipe. -/
theorem claim_C9_pass_through :
    ∀ (field : String) (_INPUT : List Record),
      pipe_uniq true field _INPUT = _INPUT := by
  intro field _INPUT
  rfl

/-- C10: every record lacking the configured field resolves to the same
absent value, so among the output records lacking the field there is
exactly the first such input record — every later record lacking the field
is dropped as a duplicate of the first. -/
theorem claim_C10_absent_field_first_only :
    ∀ (items : List Record) (field : String),
      (unique_items items field).filter (fun r => (recGet r field).isNone)
        = (items.filter (fun r => (recGet r field).isNone)).take 1 := by
  intro items field
  exact (unique_items_aux_none_filter field items []).2 (fun c => by cases c)

/-! Lemmas about the bounded trailing window. -/

/-- A deque append keeps the buffer within its bound. -/
theorem dequeAppend_length {α : Type} (n : Nat) (buf : List α) (x : α)
    (h : buf.length ≤ n) : (dequeAppend n buf x).length ≤ n := by
  unfold dequeAppend
  split_ifs with h0 hlt
  · simp
  · simpa using hlt
  · cases buf with
    | nil => simp at hlt; omega
    | cons b bt => simp at h ⊢; omega

/-- One deque append step preserves the last-`n` view of the elements fed
so far. -/
theorem dequeAppend_drop {α : Type} (n : Nat) (buf : List α) (x : α)
    (rest : List α) (h : buf.length ≤ n) :
    (dequeAppend n buf x ++ rest).drop
        ((dequeAppend n buf x).length + rest.length - n)
      = (buf ++ x :: rest).drop (buf.length + (rest.length + 1) - n) := by
  unfold dequeAppend
  split_ifs with h0 hlt
  · subst h0
    rw [List.drop_eq_nil_of_le, List.drop_eq_nil_of_le] <;> simp
  · have : (buf ++ [x]) ++ rest = buf ++ x :: rest := by simp
    rw [this]
    congr 1
    simp
    omega
  · cases buf with
    | nil => simp at hlt; omega
    | cons b bt =>
      have hn : n = bt.length + 1 := by
        simp only [List.length_cons] at h hlt
        omega
      subst hn
      simp only [List.tail_cons]
      rw [show (bt ++ [x]) ++ rest = bt ++ x :: rest by simp]
      rw [show (bt ++ [x]).length + rest.length - (bt.length + 1) = rest.length by
        simp only [List.length_append, List.length_cons, List.length_nil]
        omega]
      rw [show (b :: bt).length + (rest.length + 1) - (bt.length + 1)
          = rest.length + 1 by
        simp only [List.length_cons]
        omega]
      rw [List.cons_append, List.drop_succ_cons]

/-- Folding a stream through the bounded deque yields the last `n`
elements of the buffer followed by the stream. -/
theorem foldl_dequeAppend {α : Type} (n : Nat) :
    ∀ (xs buf : List α), buf.length ≤ n →
      xs.foldl (dequeAppend n) buf
        = (buf ++ xs).drop (buf.length + xs.length - n) := by
  intro xs
  induction xs with
  | nil =>
    intro buf h
    simp [Nat.sub_eq_zero_of_le h]
  | cons x rest ih =>
    intro buf h
    rw [List.foldl_cons]
    rw [ih (dequeAppend n buf x) (dequeAppend_length n buf x h)]
    exact dequeAppend_drop n buf x rest h

/-- Python `deque(xs, n)` for a natural bound `n` retains exactly the last
`min(n, xs.length)` elements, i.e. drops the first `xs.length - n`. -/
theorem pyDeque_eq_drop {α : Type} (xs : List α) (n : Nat) :
    pyDeque xs (n : Int) = .ok (xs.drop (xs.length - n)) := by
  unfold pyDeque
  rw [if_neg (by omega)]
  rw [show ((n : Int)).toNat = n from Int.toNat_natCast n]
  rw [foldl_dequeAppend n xs [] (by simp)]
  simp

/-! Claim theorems for the trailing window. -/

/-- C2: for the tail-truncation parser with configured count `n` coerced
to an integer, the output is exactly the last `min(n, length)` records of
the input in their original relative order (the suffix obtained by
dropping `length - n` records); in particular for the input
`[{x:0}..{x:4}]`, count 2 gives `[{x:3},{x:4}]` in that order, count 0
gives the empty stream, and any count at least the input length gives the
full input unchanged. -/
theorem claim_C2_tail_last_min_count :
    (∀ (stream : List Record) (n : Nat),
        Pipetail.parser stream (n : Int)
          = .ok (stream.drop (stream.length - n))) ∧
      Pipetail.parser exStream ((2 : Nat) : Int) = .ok [exRec 3, exRec 4] ∧
      Pipetail.parser exStream ((0 : Nat) : Int) = .ok [] ∧
      ∀ (stream : List Record) (n : Nat), stream.length ≤ n →
        Pipetail.parser stream (n : Int) = .ok stream := by
  refine ⟨fun stream n => pyDeque_eq_drop stream n, by decide, by decide, ?_⟩
  intro stream n h
  rw [show Pipetail.parser stream (n : Int) = pyDeque stream (n : Int) from rfl]
  rw [pyDeque_eq_drop stream n]
  rw [Nat.sub_eq_zero_of_le h, List.drop_zero]

/-- Witness for C2: instantiating the count-at-least-length conjunct at
the concrete example stream of length 5 with count 5. -/
theorem claim_C2_tail_last_min_count_witness :
    Pipetail.parser exStream ((5 : Nat) : Int) = .ok exStream :=
  claim_C2_tail_last_min_count.2.2.2 exStream 5 (by decide)

/-- C1: the synchronous and asynchronous entry points of the tail pipe and
of the rss item builder produce identical outputs for every input and
configuration — the value the asynchronous Deferred resolves to is the
synchronous output — and both delegate to the same `parser` function with
the same arguments. -/
theorem claim_C1_sync_async_equivalence :
    (∀ (stream : List Record) (count : Int),
        (Pipetail.asyncPipe stream count).result = Pipetail.pipe stream count ∧
        Pipetail.pipe stream count = Pipetail.parser stream count) ∧
      ∀ (item : Record) (conf : List (String × String)) (ts : String),
        (Rssitembuilder.asyncPipe item conf ts).result
            = Rssitembuilder.pipe item conf ts ∧
        Rssitembuilder.pipe item conf ts
            = (Rssitembuilder.parser item
                (Rssitembuilder.mergeDefaults (Rssitembuilder.DEFAULTS ts) conf)
                false .nil).1 := by
  exact ⟨fun _ _ => ⟨rfl, rfl⟩, fun _ _ _ => ⟨rfl, rfl⟩⟩

/-! Lemmas about the record accessor. -/

/-- The default-threading descent of the accessor agrees with the
Option-valued path lookup followed by the default. -/
theorem getSegsD_eq_getPathSegs :
    ∀ (segs : List String) (r : Record) (d : Value),
      getSegsD r segs d = (getPathSegs r segs).getD d := by
  intro segs
  induction segs with
  | nil => intro r d; rfl
  | cons k rest ih =>
    intro r d
    cases rest with
    | nil => rfl
    | cons k' rest' =>
      cases hrk : recGet r k with
      | none => simp [getSegsD, getPathSegs, hrk]
      | some v =>
        cases v with
        | str s => simp [getSegsD, getPathSegs, hrk]
        | int i => simp [getSegsD, getPathSegs, hrk]
        | obj r' => simp [getSegsD, getPathSegs, hrk, ih r' d]

/-! Claim theorems for the rss item builder. -/

/-- C7: for every configuration entry value `v` and every input record,
the resolved value is the record's value at path `v` when that path is
present, and otherwise the raw string `v` itself used verbatim as a
literal; the resolution is a total function, so resolving an absent
reference never raises. -/
theorem claim_C7_two_tier_entry_resolution :
    ∀ (item : Record) (v : String),
      resolveEntry item v = (dotGet item v).getD (.str v) ∧
      (∀ x, dotGet item v = some x → resolveEntry item v = x) ∧
      (dotGet item v = none → resolveEntry item v = .str v) := by
  intro item v
  have h := getSegsD_eq_getPathSegs (pySplitOn v '.') item (.str v)
  refine ⟨h, ?_, ?_⟩
  · intro x hx
    rw [show resolveEntry item v = getSegsD item (pySplitOn v '.') (.str v) from rfl,
      h]
    rw [show dotGet item v = getPathSegs item (pySplitOn v '.') from rfl] at hx
    rw [hx]
    rfl
  · intro hx
    rw [show resolveEntry item v = getSegsD item (pySplitOn v '.') (.str v) from rfl,
      h]
    rw [show dotGet item v = getPathSegs item (pySplitOn v '.') from rfl] at hx
    rw [hx]
    rfl

/-- Witness for C7: on the example record, the configured value "id" is a
present path and resolves to that field's value, while "missing" is absent
and resolves to the literal string itself. -/
theorem claim_C7_two_tier_entry_resolution_witness :
    resolveEntry exItem "id" = .str "a1" ∧
      resolveEntry exItem "missing" = .str "missing" :=
  ⟨(claim_C7_two_tier_entry_resolution exItem "id").2.1 (.str "a1") (by decide),
   (claim_C7_two_tier_entry_resolution exItem "missing").2.2 (by decide)⟩

/-- C6: with skip false, configuration `{guid: "id", mediaThumbURL:
"thumbnail"}` and input record `{id: "a1", thumbnail: "image.png"}`, the
output record is exactly `{"y:id": "a1", "media:thumbnail": {"url":
"image.png"}, "pubDate": ts}` for the current timestamp `ts` (non-empty,
not a path of the input record), and the configured keys are renamed
through the fixed table. -/
theorem claim_C6_rss_remap_example :
    ∀ ts : String, ts ≠ "" → dotGet exItem ts = none →
      Rssitembuilder.pipe exItem
            [("guid", "id"), ("mediaThumbURL", "thumbnail")] ts
          = .cons "y:id" (.str "a1")
              (.cons "media:thumbnail"
                (.obj (.cons "url" (.str "image.png") .nil))
                (.cons "pubDate" (.str ts) .nil)) ∧
        rssRename "title" = "y:title" ∧
        rssRename "guid" = "y:id" ∧
        rssRename "mediaThumbURL" = "media:thumbnail.url" := by
  intro ts h1 h2
  have hres : resolveEntry exItem ts = .str ts := by
    have h := getSegsD_eq_getPathSegs (pySplitOn ts '.') exItem (.str ts)
    rw [show resolveEntry exItem ts
        = getSegsD exItem (pySplitOn ts '.') (.str ts) from rfl, h]
    rw [show dotGet exItem ts = getPathSegs exItem (pySplitOn ts '.') from rfl] at h2
    rw [h2]
    rfl
  have hout : Rssitembuilder.pipe exItem
      [("guid", "id"), ("mediaThumbURL", "thumbnail")] ts
      = .cons "y:id" (.str "a1")
          (.cons "media:thumbnail" (.obj (.cons "url" (.str "image.png") .nil))
            (.cons "pubDate" (resolveEntry exItem ts) .nil)) := rfl
  rw [hres] at hout
  exact ⟨hout, by decide, by decide, by decide⟩

/-- Witness for C6: a concrete ISO-8601 timestamp, non-empty and not a
path into the example record. -/
theorem claim_C6_rss_remap_example_witness :
    Rssitembuilder.pipe exItem
        [("guid", "id"), ("mediaThumbURL", "thumbnail")] "2016-05-12T10:00:00"
      = .cons "y:id" (.str "a1")
          (.cons "media:thumbnail"
            (.obj (.cons "url" (.str "image.png") .nil))
            (.cons "pubDate" (.str "2016-05-12T10:00:00") .nil)) :=
  (claim_C6_rss_remap_example "2016-05-12T10:00:00" (by decide) (by decide)).1

/-! Lemmas and claim theorems for the date builder. -/

/-- The fallback loop leaves the date unchanged: every parse attempt on
the non-string value fails. -/
theorem strptimeFallback_eq {D : Type} (formats : List String) (d : D) :
    strptimeFallback formats d = d := by
  induction formats with
  | nil => rfl
  | cons f rest ih => exact ih

/-- When the three-way dispatch succeeds, the whole per-item computation
yields the dispatched date: a truthy struct_time skips the fallback loop,
and even a falsy one passes through the loop unchanged. -/
theorem datebuilder_item_ok {D : Type} (ops : DateOps D)
    (importToday importNow today : D) (formats : List String) (expr : String)
    (d : D)
    (h : datebuilder_dispatch ops importToday importNow today (pyLower expr)
      = .ok d) :
    datebuilder_item ops importToday importNow today formats expr = .ok d := by
  unfold datebuilder_item
  rw [h]
  cases htr : ops.truthy d
  · simp [htr, strptimeFallback_eq]
  · simp [htr]

/-- C8: a trailing day suffix adds the parsed count of days to the
resolution-time today, a trailing year suffix adds the parsed count of
years, and the keywords resolve through the table built at module import
time — except that the keyword "now" raises AttributeError, since `SWITCH`
stores it as an already-converted struct_time on which `.timetuple()` is
called again. -/
theorem claim_C8_datebuilder_dispatch_and_now_bug :
    ∀ (D : Type) (ops : DateOps D) (importToday importNow today : D)
      (formats : List String),
      datebuilder_item ops importToday importNow today formats "3 days"
          = .ok (ops.addDays today 3) ∧
      datebuilder_item ops importToday importNow today formats "7 years"
          = .ok (ops.replaceYearAdd today 7) ∧
      datebuilder_item ops importToday importNow today formats "today"
          = .ok importToday ∧
      datebuilder_item ops importToday importNow today formats "tomorrow"
          = .ok (ops.addDays importToday 1) ∧
      datebuilder_item ops importToday importNow today formats "yesterday"
          = .ok (ops.addDays importToday (-1)) ∧
      datebuilder_item ops importToday importNow today formats "now"
          = .error .attributeError := by
  intro D ops iT iN t formats
  refine ⟨datebuilder_item_ok _ _ _ _ _ _ _ rfl,
          datebuilder_item_ok _ _ _ _ _ _ _ rfl,
          datebuilder_item_ok _ _ _ _ _ _ _ rfl,
          datebuilder_item_ok _ _ _ _ _ _ _ rfl,
          datebuilder_item_ok _ _ _ _ _ _ _ rfl,
          rfl⟩

/-- Witness for C8: the dispatch evaluated over the toy integer dates with
import-time today 100, import-time now 200 and resolution-time today 300. -/
theorem claim_C8_datebuilder_dispatch_and_now_bug_witness :
    datebuilder_item intDateOps 100 200 300 [] "3 days" = .ok 303 ∧
      datebuilder_item intDateOps 100 200 300 [] "7 years" = .ok 7300 ∧
      datebuilder_item intDateOps 100 200 300 [] "today" = .ok 100 ∧
      datebuilder_item intDateOps 100 200 300 [] "tomorrow" = .ok 101 ∧
      datebuilder_item intDateOps 100 200 300 [] "yesterday" = .ok 99 ∧
      datebuilder_item intDateOps 100 200 300 [] "now" = .error .attributeError :=
  claim_C8_datebuilder_dispatch_and_now_bug Int intDateOps 100 200 300 []

/-- C3: for a date expression with no day/year suffix that is not one of
the fixed keywords, the claimed behavior is to try each alternative format
and report an unresolved/error outcome if all fail; instead
`SWITCH.get(date)` returns None and the immediate `.timetuple()` attribute
access raises AttributeError before any fallback format is attempted,
whatever the formats list is. -/
theorem claim_C3_unknown_expression_attribute_error :
    ∀ (D : Type) (ops : DateOps D) (importToday importNow today : D)
      (formats : List String),
      datebuilder_item ops importToday importNow today formats "2015-06-01"
          = .error .attributeError ∧
      pipe_datebuilder ops importToday importNow today formats
          (fun _ => "2015-06-01") [exItem]
          = [.error .attributeError] := by
  intro D ops iT iN t formats
  exact ⟨rfl, rfl⟩

/-- Witness for C3: the crash evaluated over the toy integer dates, with a
non-empty list of alternative formats available that is never reached. -/
theorem claim_C3_unknown_expression_attribute_error_witness :
    datebuilder_item intDateOps 100 200 300 ["%d/%m/%Y"] "2015-06-01"
        = .error .attributeError ∧
      pipe_datebuilder intDateOps 100 200 300 ["%d/%m/%Y"]
          (fun _ => "2015-06-01") [exItem]
        = [.error .attributeError] :=
  claim_C3_unknown_expression_attribute_error Int intDateOps 100 200 300
    ["%d/%m/%Y"]

end Riko
